import Mathlib

/-!
Verification of the `latency` tool: a shallow embedding of the program's
TCP segment codec, checksum engine, probe sender and reply listener,
followed by theorems checking the specification's claims.

The repository has two Go files. `latency.go` (the current revision, the
one with the `-a` auto mode and the remote-address filter) is embedded
below. The TCP codec file (`TCPHeader`, `Marshal`, `NewTCPHeader`,
`HasFlag`, `Csum`, the flag constants) is not present in the sources, so
those definitions are modelled from the specification's description of the
Segment Codec and the Checksum Engine; `latency.go` fixes the field names
(`Source`, `Destination`, `SeqNum`, `AckNum`, `DataOffset`, `Reserved`,
`ECN`, `Ctrl`, `Window`, `Checksum`, `Urgent`, `Options`).

Conventions of the embedding:
- machine bytes are `Nat` values < 256; 16-bit and 32-bit fields are `Nat`
  values with explicit `% 2^w` where overflow matters;
- Go strings are Lean `String`s; `strings.Split(addr, ".")` is modelled by
  a character-level split (`splitDots`) on `String.data`;
- timestamps are `Int` (nanoseconds of a deterministic injected clock);
- fatal termination (`log.Fatalf`) and runtime panics are explicit
  constructors of result types.
-/

/-- Big-endian encoding of a 16-bit value into two bytes
(`binary.Write(buf, binary.BigEndian, v)` for a `uint16`). -/
def enc16 (v : Nat) : List Nat :=
  [v / 256 % 256, v % 256]

/-- Big-endian encoding of a 32-bit value into four bytes
(`binary.Write(buf, binary.BigEndian, v)` for a `uint32`). -/
def enc32 (v : Nat) : List Nat :=
  [v / 16777216 % 256, v / 65536 % 256, v / 256 % 256, v % 256]

/-- The 16-bit big-endian word stored at byte offset `i` of a byte list. -/
def word16At (l : List Nat) (i : Nat) : Nat :=
  l.getD i 0 * 256 + l.getD (i + 1) 0

/-- Modelled from the spec: the TCP flag constants used by the codec
(`FIN`, `SYN`, `RST`, `PSH`, `ACK`, `URG` — bit positions inside the
6-bit `Ctrl` field); the codec source file is missing from the
repository, only its callers are present. -/
def FIN : Nat := 1

/-- TCP SYN flag bit (connection initiation). -/
def SYN : Nat := 2

/-- TCP RST flag bit (connection reset/refusal). -/
def RST : Nat := 4

/-- TCP PSH flag bit. -/
def PSH : Nat := 8

/-- TCP ACK flag bit (acknowledgment). -/
def ACK : Nat := 16

/-- TCP URG flag bit. -/
def URG : Nat := 32

/-- Modelled from the spec: the TCP header structure (one header, no
payload). The codec source file is missing from the repository; the field
names and widths are fixed by the construction site in `latency.go`
(`sendSyn`) and the spec's data model: 16-bit ports, 32-bit
sequence/acknowledgment numbers, 4-bit `DataOffset`, 3-bit `Reserved`,
a 9-bit flag set split as 3-bit `ECN` plus 6-bit `Ctrl`, 16-bit window,
checksum and urgent pointer, and a sequence of raw option bytes. -/
structure TCPHeader where
  Source : Nat
  Destination : Nat
  SeqNum : Nat
  AckNum : Nat
  DataOffset : Nat
  Reserved : Nat
  ECN : Nat
  Ctrl : Nat
  Window : Nat
  Checksum : Nat
  Urgent : Nat
  Options : List Nat
  deriving DecidableEq, Repr

/-- The 9-bit flag set of a header: the 3 `ECN` bits above the 6 `Ctrl`
bits, as described by the spec's encode layout (high bit of the flags
shares byte 12 with `DataOffset` and `Reserved`; the remaining 8 flag
bits fill byte 13). -/
def TCPHeader.flags9 (tcp : TCPHeader) : Nat :=
  tcp.ECN * 64 + tcp.Ctrl

/-- Modelled from the spec: `encode(segment) -> byte sequence`, the
codec's `Marshal`. Produces `dataOffset*4 + len(options)` bytes in
network byte order: source port (2B), dest port (2B), sequence number
(4B), ack number (4B), one byte packing `DataOffset` (4 bits) +
`Reserved` (3 bits) + the high flag bit, one byte with the remaining
8 flag bits, window (2B), checksum (2B), urgent pointer (2B), then the
raw option bytes. The two packed bytes are the big-endian 16-bit word
`DataOffset<<12 | Reserved<<9 | ECN<<6 | Ctrl`. -/
def TCPHeader.Marshal (tcp : TCPHeader) : List Nat :=
  enc16 tcp.Source ++
  enc16 tcp.Destination ++
  enc32 tcp.SeqNum ++
  enc32 tcp.AckNum ++
  enc16 (tcp.DataOffset % 16 * 4096 + tcp.Reserved % 8 * 512 +
         tcp.ECN % 8 * 64 + tcp.Ctrl % 64) ++
  enc16 tcp.Window ++
  enc16 tcp.Checksum ++
  enc16 tcp.Urgent ++
  tcp.Options

/-- Modelled from the spec: `decode(bytes) -> segment`, the codec's
`NewTCPHeader`. Reads the ports, sequence/ack numbers, reconstructs
`DataOffset`, `Reserved` and the flag bits from the packed bytes 12-13,
then window, checksum and urgent pointer. Option bytes present after the
20-byte fixed header are tolerated and not reconstructed into the
`Options` field (the probe replies are only inspected for flags). -/
def NewTCPHeader (data : List Nat) : TCPHeader :=
  let mix := word16At data 12
  { Source := word16At data 0
    Destination := word16At data 2
    SeqNum := data.getD 4 0 * 16777216 + data.getD 5 0 * 65536 +
              data.getD 6 0 * 256 + data.getD 7 0
    AckNum := data.getD 8 0 * 16777216 + data.getD 9 0 * 65536 +
              data.getD 10 0 * 256 + data.getD 11 0
    DataOffset := mix / 4096
    Reserved := mix / 512 % 8
    ECN := mix / 64 % 8
    Ctrl := mix % 64
    Window := word16At data 14
    Checksum := word16At data 16
    Urgent := word16At data 18
    Options := [] }

/-- Modelled from the spec: `hasFlag(segment, flag)` tests a single bit
of the flag set (used for the RST, SYN and ACK checks in the listener). -/
def TCPHeader.HasFlag (tcp : TCPHeader) (flag : Nat) : Bool :=
  tcp.flags9 &&& flag != 0

/-- One step of the end-around-carry fold: while the running sum exceeds
16 bits, add the overflow back into the low 16 bits. -/
def foldCarry (s : Nat) : Nat :=
  if h : s < 65536 then s
  else foldCarry (s % 65536 + s / 65536)
  termination_by s
  decreasing_by
    simp only [not_lt] at h
    omega

/-- Pair consecutive bytes into big-endian 16-bit words; an odd trailing
byte becomes the high byte of a final word with a zero low byte. -/
def toWords : List Nat → List Nat
  | [] => []
  | [a] => [a * 256]
  | a :: b :: rest => (a * 256 + b) :: toWords rest

/-- Zero the checksum field (bytes 16 and 17) of a serialized segment. -/
def zeroChecksumField (data : List Nat) : List Nat :=
  (data.set 16 0).set 17 0

/-- Modelled from the spec: `checksum(segmentBytes, sourceIPv4, destIPv4)`,
the checksum engine's `Csum`; its source file is missing from the
repository. Builds the TCP pseudo-header (source address 4B, dest
address 4B, zero byte, protocol number 6, segment length 2B), appends the
segment bytes with the checksum field forced to 0, sums the 16-bit words
with end-around carry and returns the one's complement. -/
def Csum (data : List Nat) (srcip dstip : List Nat) : Nat :=
  let pseudoHeader := srcip ++ dstip ++ [0, 6] ++ enc16 data.length
  let sumThis := pseudoHeader ++ zeroChecksumField data
  65535 - foldCarry (toWords sumThis).sum

/-- A character is an ASCII decimal digit. -/
def isDigitChar (c : Char) : Bool :=
  48 ≤ c.toNat && c.toNat ≤ 57

/-- Numeric value of a digit string (most significant first). -/
def digitsToNat (cs : List Char) : Nat :=
  cs.foldl (fun a c => a * 10 + (c.toNat - 48)) 0

/-- Go's `strconv.Atoi`: optional sign followed by at least one digit;
`none` models the error return (ranges beyond the host int are not
modelled — the addresses parsed here are dotted-quad octets). -/
def atoi (cs : List Char) : Option Int :=
  match cs with
  | '-' :: rest =>
    if rest ≠ [] ∧ rest.all isDigitChar then some (-(digitsToNat rest : Int))
    else none
  | '+' :: rest =>
    if rest ≠ [] ∧ rest.all isDigitChar then some (digitsToNat rest : Int)
    else none
  | _ =>
    if cs ≠ [] ∧ cs.all isDigitChar then some (digitsToNat cs : Int)
    else none

/-- Go's `strings.Split(s, ".")` at the character level: splitting the
empty string yields one empty part, and every `.` starts a new part. -/
def splitDots : List Char → List (List Char)
  | [] => [[]]
  | c :: rest =>
    if c = '.' then [] :: splitDots rest
    else match splitDots rest with
      | [] => [[c]]
      | a :: as => (c :: a) :: as

/-- Go's conversion `byte(i)` of a host int: the low 8 bits. -/
def byteOf (i : Int) : Nat :=
  (i % 256).toNat

/-- Outcome of `to4byte`: `fatal` models `log.Fatalf` (clean fatal
termination), `panicked` models a Go runtime panic (index out of range
on `parts`), `ok` carries the four produced bytes. -/
inductive To4Result
  | fatal
  | panicked
  | ok (bytes : List Nat)
  deriving DecidableEq, Repr

/-- `to4byte(addr)`: split on dots; `strconv.Atoi` on the first part with
its error checked (`log.Fatalf` on failure), then `Atoi` on parts 1-3
with the errors discarded (`b, _ :=`), so a failed later octet
contributes Go's zero value. Accessing a missing `parts[i]` is a runtime
panic. -/
def to4byte (addr : String) : To4Result :=
  match splitDots addr.data with
  | [] => To4Result.panicked
  | p0 :: rest =>
    match atoi p0 with
    | none => To4Result.fatal
    | some b0 =>
      match rest with
      | p1 :: p2 :: p3 :: _ =>
        To4Result.ok [byteOf b0, byteOf ((atoi p1).getD 0),
                      byteOf ((atoi p2).getD 0), byteOf ((atoi p3).getD 0)]
      | _ => To4Result.panicked

/-- The SYN probe segment built by `sendSyn`: marker source port
`0xaa47`, destination = `port`, sequence number = the value produced by
`rand.Uint32()` (passed in as `seq`), ack 0, `DataOffset` 5, flags
SYN only (`Ctrl = 2`), window `0xaaaa`, checksum temporarily 0,
no options. -/
def sendSynPacket (port seq : Nat) : TCPHeader :=
  { Source := 0xaa47
    Destination := port
    SeqNum := seq
    AckNum := 0
    DataOffset := 5
    Reserved := 0
    ECN := 0
    Ctrl := 2
    Window := 0xaaaa
    Checksum := 0
    Urgent := 0
    Options := [] }

/-- The byte sequence `sendSyn` writes to the raw socket: marshal the
packet with checksum 0, compute `Csum` over those bytes and the two
4-byte addresses, store the result in the `Checksum` field and marshal
again (`srcip`/`dstip` are the `to4byte` results for the local and
remote address). -/
def sendSynData (srcip dstip : List Nat) (port seq : Nat) : List Nat :=
  let packet := sendSynPacket port seq
  let data := packet.Marshal
  let packet2 := { packet with Checksum := Csum data srcip dstip }
  packet2.Marshal

/-- Outcome of the write phase of `sendSyn`: `fatal` models `log.Fatalf`
(on a write error or a short write), `sent` carries the send timestamp
captured immediately before the write. -/
inductive SendResult
  | fatal
  | sent (sendTime : Int)
  deriving DecidableEq, Repr

/-- The write phase of `sendSyn`: `conn.Write(data)` returns either an
error or a byte count `numWrote`; an error or `numWrote ≠ len(data)` is
`log.Fatalf`, otherwise the send timestamp is returned. -/
def sendSynWrite (dataLen : Nat) (writeResult : Except Unit Nat)
    (sendTime : Int) : SendResult :=
  match writeResult with
  | Except.error _ => SendResult.fatal
  | Except.ok numWrote =>
    if numWrote ≠ dataLen then SendResult.fatal
    else SendResult.sent sendTime

/-- One inbound datagram presented to the reply listener: the sender's
address as reported by `ReadFrom` (`raddr.String()`), the raw payload
bytes of the datagram, and the value `time.Now()` would return at its
receipt. -/
structure Datagram where
  src : String
  payload : List Nat
  time : Int
  deriving DecidableEq, Repr

/-- The listener reads each datagram into `buf := make([]byte, 1024)`,
so `buf[:numRead]` holds at most the first 1024 payload bytes; the
decoded segment is `NewTCPHeader` of that truncated slice. -/
def listenerDecode (d : Datagram) : TCPHeader :=
  NewTCPHeader (d.payload.take 1024)

/-- The loop's exit test: `tcp.HasFlag(RST) || (tcp.HasFlag(SYN) &&
tcp.HasFlag(ACK))` — closed port gets RST, open port gets SYN ACK. -/
def qualifies (tcp : TCPHeader) : Bool :=
  tcp.HasFlag RST || (tcp.HasFlag SYN && tcp.HasFlag ACK)

/-- `receiveSynAck(localAddress, remoteAddress)`, applied to the finite
prefix of the inbound datagram stream that the loop consumes: a datagram
whose source differs from `remoteAddress` is skipped (`continue`);
otherwise the receive time is recorded, the truncated payload decoded,
and the loop breaks with that time if the segment carries RST or both
SYN and ACK. `none` means the given datagrams were exhausted without a
match (the real loop would keep blocking on `ReadFrom`). -/
def receiveSynAck (remoteAddress : String) : List Datagram → Option Int
  | [] => none
  | d :: rest =>
    if d.src ≠ remoteAddress then receiveSynAck remoteAddress rest
    else if qualifies (listenerDecode d) then some d.time
    else receiveSynAck remoteAddress rest

/-- Events of one iteration of the `receiveSynAck` loop, indexed by the
position of the datagram in the inbound stream: the `ReadFrom` return,
the remote-address filter comparison, the `receiveTime = time.Now()`
assignment, and the `NewTCPHeader` decode / flag match. -/
inductive LEvent
  | readEv (i : Nat)
  | filterEv (i : Nat)
  | stampEv (i : Nat)
  | decodeEv (i : Nat)
  deriving DecidableEq, Repr

/-- The sequence of events `receiveSynAck` performs on a datagram
stream, starting at index `i`, in the order of the statements in the
loop body: `ReadFrom`, then the filter comparison (`continue` on
mismatch), then the timestamp assignment, then decode and flag match
(`break` when the segment qualifies). -/
def listenTrace (remoteAddress : String) (i : Nat) : List Datagram → List LEvent
  | [] => []
  | d :: rest =>
    if d.src ≠ remoteAddress then
      LEvent.readEv i :: LEvent.filterEv i ::
        listenTrace remoteAddress (i + 1) rest
    else if qualifies (listenerDecode d) then
      [LEvent.readEv i, LEvent.filterEv i, LEvent.stampEv i, LEvent.decodeEv i]
    else
      LEvent.readEv i :: LEvent.filterEv i :: LEvent.stampEv i ::
        LEvent.decodeEv i :: listenTrace remoteAddress (i + 1) rest

/-- The orchestrator's final computation (`receiveTime.Sub(sendTime)`):
the raw difference, with no special handling of negative or implausible
values. -/
def latencyDuration (sendTime receiveTime : Int) : Int :=
  receiveTime - sendTime

/-- The `latency` function's result under an injected deterministic
clock: the listener's receive timestamp for the given inbound datagrams,
minus the send timestamp. -/
def latencyMeasure (remoteAddress : String) (ds : List Datagram)
    (sendTime : Int) : Option Int :=
  (receiveSynAck remoteAddress ds).map (latencyDuration sendTime)

/-- Top-level events of one `latency(localAddr, remoteHost, port)` call:
`net.LookupHost`, `log.Fatalf` on its error, the spawn of the listener
goroutine, the listener's `net.ListenIP` socket open, the 1 ms sleep,
`sendSyn`'s `net.Dial` socket open, the write, and the `wg.Wait` join. -/
inductive OEvent
  | lookupEv
  | fatalEv
  | spawnListenerEv
  | openListenSocketEv
  | sleepEv
  | openSendSocketEv
  | writeEv
  | joinEv
  deriving DecidableEq, Repr

/-- An event is the opening of a socket (send or listen). -/
def OEvent.isSocketOpen : OEvent → Bool
  | OEvent.openListenSocketEv => true
  | OEvent.openSendSocketEv => true
  | _ => false

/-- The event sequence of `latency`, determined by the outcome of
`net.LookupHost` (`none` models the error return): on failure,
`log.Fatalf` terminates right after the lookup; on success the listener
goroutine is spawned and the probe sent (the success branch linearizes
the admissible interleaving in which the listener binds its socket
during the 1 ms sleep, which is the ordering the sleep is there to
approximate). `LookupHost` is called before the goroutine is spawned,
so the failure path contains no socket activity at all. -/
def latencyEvents (lookupResult : Option String) : List OEvent :=
  match lookupResult with
  | none => [OEvent.lookupEv, OEvent.fatalEv]
  | some _ =>
    [OEvent.lookupEv, OEvent.spawnListenerEv, OEvent.sleepEv,
     OEvent.openListenSocketEv, OEvent.openSendSocketEv, OEvent.writeEv,
     OEvent.joinEv]

/-- The checksum field (bytes 16-17) of a marshalled header is the
header's `Checksum` value, for in-range checksums. -/
theorem marshal_checksum_field (tcp : TCPHeader) (h : tcp.Checksum < 65536) :
    word16At tcp.Marshal 16 = tcp.Checksum := by
  obtain ⟨s, d, q, a, o, r, e, c, w, k, u, opts⟩ := tcp
  simp only at h
  simp only [TCPHeader.Marshal, enc16, enc32, word16At, List.cons_append,
    List.nil_append, List.getD_cons_zero, List.getD_cons_succ]
  omega

/-- C1: for every validly constructed TCP segment with `DataOffset = 5`
and no options, decoding the result of encoding it (`NewTCPHeader`
applied to `Marshal`'s output) reproduces every field exactly: source
port, dest port, sequence number, acknowledgment number, `DataOffset`,
flags, window size, checksum and urgent pointer. -/
theorem c1_roundtrip (tcp : TCPHeader)
    (hs : tcp.Source < 65536) (hd : tcp.Destination < 65536)
    (hq : tcp.SeqNum < 4294967296) (ha : tcp.AckNum < 4294967296)
    (ho : tcp.DataOffset = 5) (hr : tcp.Reserved < 8)
    (he : tcp.ECN < 8) (hc : tcp.Ctrl < 64)
    (hw : tcp.Window < 65536) (hk : tcp.Checksum < 65536)
    (hu : tcp.Urgent < 65536) (hopt : tcp.Options = []) :
    NewTCPHeader tcp.Marshal = tcp := by
  obtain ⟨s, d, q, a, o, r, e, c, w, k, u, opts⟩ := tcp
  simp only at hs hd hq ha ho hr he hc hw hk hu hopt
  subst ho hopt
  simp only [TCPHeader.Marshal, NewTCPHeader, enc16, enc32, word16At,
    List.cons_append, List.nil_append, List.getD_cons_zero, List.getD_cons_succ,
    List.append_nil, TCPHeader.mk.injEq]
  refine ⟨?_, ?_, ?_, ?_, ?_, ?_, ?_, ?_, ?_, ?_, ?_, ?_⟩ <;>
    first | trivial | omega

/-- Witness for C1: a concrete validly constructed segment round-trips. -/
theorem c1_roundtrip_witness :
    (443 : Nat) < 65536 ∧
    NewTCPHeader (TCPHeader.Marshal
      ⟨443, 80, 123456789, 987654321, 5, 3, 1, 18, 4660, 43981, 7, []⟩) =
      ⟨443, 80, 123456789, 987654321, 5, 3, 1, 18, 4660, 43981, 7, []⟩ :=
  ⟨by decide,
   c1_roundtrip ⟨443, 80, 123456789, 987654321, 5, 3, 1, 18, 4660, 43981, 7, []⟩
     (by decide) (by decide) (by decide) (by decide) (by decide) (by decide)
     (by decide) (by decide) (by decide) (by decide) (by decide) (by decide)⟩

/-- C2: `sendSyn` computes the checksum over the serialized segment with
the checksum field equal to 0 (the first `Marshal`, whose bytes 16-17
are zero) together with the two 4-byte addresses, and substitutes the
computed value into the segment before the final serialization: the
bytes written carry the computed `Csum` value in their checksum field,
not 0's placeholder. -/
theorem c2_checksum_substituted (srcip dstip : List Nat) (port seq : Nat) :
    word16At (sendSynPacket port seq).Marshal 16 = 0 ∧
    word16At (sendSynData srcip dstip port seq) 16 =
      Csum (sendSynPacket port seq).Marshal srcip dstip := by
  refine ⟨?_, ?_⟩
  · have h0 : (sendSynPacket port seq).Checksum = 0 := rfl
    have hf := marshal_checksum_field (sendSynPacket port seq) (by rw [h0]; omega)
    rw [h0] at hf
    exact hf
  · have hlt : Csum (sendSynPacket port seq).Marshal srcip dstip < 65536 :=
      Nat.lt_succ_of_le (Nat.sub_le _ _)
    have hdata : sendSynData srcip dstip port seq =
        TCPHeader.Marshal { sendSynPacket port seq with
          Checksum := Csum (sendSynPacket port seq).Marshal srcip dstip } := rfl
    rw [hdata]
    exact marshal_checksum_field _ hlt

/-- C3: the segment `sendSyn` builds has the fixed marker source port
`0xaa47`, destination equal to the `port` argument, the randomized
sequence number it drew, ack number 0, `DataOffset` 5, exactly the SYN
flag set (ACK and RST clear), the fixed window `0xaaaa`, checksum
initially 0, no options, and it serializes to exactly
`DataOffset * 4 = 20` bytes. -/
theorem c3_syn_packet (port seq : Nat) :
    (sendSynPacket port seq).Source = 0xaa47 ∧
    (sendSynPacket port seq).Destination = port ∧
    (sendSynPacket port seq).SeqNum = seq ∧
    (sendSynPacket port seq).AckNum = 0 ∧
    (sendSynPacket port seq).DataOffset = 5 ∧
    (sendSynPacket port seq).HasFlag SYN = true ∧
    (sendSynPacket port seq).HasFlag ACK = false ∧
    (sendSynPacket port seq).HasFlag RST = false ∧
    (sendSynPacket port seq).Window = 0xaaaa ∧
    (sendSynPacket port seq).Checksum = 0 ∧
    (sendSynPacket port seq).Urgent = 0 ∧
    (sendSynPacket port seq).Options = [] ∧
    (sendSynPacket port seq).Marshal.length = (sendSynPacket port seq).DataOffset * 4 ∧
    (sendSynPacket port seq).Marshal.length = 20 := by
  refine ⟨rfl, rfl, rfl, rfl, rfl, ?_, ?_, ?_, rfl, rfl, rfl, rfl, rfl, rfl⟩
  · simp only [TCPHeader.HasFlag, TCPHeader.flags9, sendSynPacket]
    decide
  · simp only [TCPHeader.HasFlag, TCPHeader.flags9, sendSynPacket]
    decide
  · simp only [TCPHeader.HasFlag, TCPHeader.flags9, sendSynPacket]
    decide

/-- C4: datagrams whose source does not equal the remote-address filter
are discarded without terminating the loop, and the listener returns the
timestamp of the first datagram that passes the filter and decodes to a
segment carrying RST, or both SYN and ACK; all other datagrams
(including pure ACKs) are skipped and the loop continues. -/
theorem c4_listener_first_match (remoteAddress : String)
    (pre post : List Datagram) (d : Datagram)
    (hpre : ∀ x ∈ pre, x.src ≠ remoteAddress ∨ qualifies (listenerDecode x) = false)
    (hsrc : d.src = remoteAddress) (hq : qualifies (listenerDecode d) = true) :
    receiveSynAck remoteAddress (pre ++ d :: post) = some d.time := by
  induction pre with
  | nil =>
    simp only [List.nil_append, receiveSynAck, hsrc, hq, ne_eq,
      not_true_eq_false, if_false, if_true]
  | cons x xs ih =>
    have hx := hpre x (List.mem_cons_self x xs)
    have hxs : ∀ y ∈ xs, y.src ≠ remoteAddress ∨ qualifies (listenerDecode y) = false :=
      fun y hy => hpre y (List.mem_cons_of_mem x hy)
    simp only [List.cons_append, receiveSynAck]
    rcases hx with h | h
    · rw [if_pos h]
      exact ih hxs
    · by_cases hxsrc : x.src ≠ remoteAddress
      · rw [if_pos hxsrc]
        exact ih hxs
      · rw [if_neg hxsrc, if_neg (by simp [h])]
        exact ih hxs

/-- A 20-byte wire segment with only the RST flag set (byte 12 packs
`DataOffset` 5, byte 13 is the flag byte `0b000100`). -/
def rstPayload : List Nat :=
  [170, 71, 0, 80, 0, 0, 0, 9, 0, 0, 0, 1, 80, 4, 0, 0, 0, 0, 0, 0]

/-- A 20-byte wire segment with SYN and ACK set (flag byte `0b010010`). -/
def synAckPayload : List Nat :=
  [0, 80, 170, 71, 0, 0, 0, 5, 0, 0, 0, 10, 80, 18, 170, 170, 0, 0, 0, 0]

/-- A 20-byte wire segment with only ACK set (flag byte `0b010000`). -/
def ackPayload : List Nat :=
  [0, 80, 170, 71, 0, 0, 0, 5, 0, 0, 0, 10, 80, 16, 170, 170, 0, 0, 0, 0]

/-- Witness for C4: a wrong-source RST, then a right-source pure ACK,
are both skipped; the right-source SYN/ACK at time 3 is returned, and a
later RST is never reached. -/
theorem c4_listener_first_match_witness :
    (∀ x ∈ [Datagram.mk "1.1.1.1" rstPayload 1, Datagram.mk "5.6.7.8" ackPayload 2],
      x.src ≠ "5.6.7.8" ∨ qualifies (listenerDecode x) = false) ∧
    receiveSynAck "5.6.7.8"
      ([Datagram.mk "1.1.1.1" rstPayload 1, Datagram.mk "5.6.7.8" ackPayload 2] ++
        Datagram.mk "5.6.7.8" synAckPayload 3 :: [Datagram.mk "5.6.7.8" rstPayload 4]) =
      some 3 := by
  constructor
  · decide
  · exact c4_listener_first_match "5.6.7.8" _ _ _ (by decide) (by decide) (by decide)

/-- C5: the orchestrator's result is `receiveTimestamp - sendTimestamp`
with no special handling: under an injected deterministic clock, with
send at `T0` and the qualifying receive at `T0 + dlt` with `0 < dlt`,
the reported duration is exactly `dlt`. -/
theorem c5_reported_difference (remoteAddress : String) (ds : List Datagram)
    (T0 dlt : Int) (h : receiveSynAck remoteAddress ds = some (T0 + dlt))
    (_hpos : 0 < dlt) :
    latencyMeasure remoteAddress ds T0 = some dlt := by
  simp only [latencyMeasure, h, Option.map_some', latencyDuration,
    add_sub_cancel_left]

/-- Witness for C5: send at 2, qualifying RST received at 7, reported
latency exactly 5. -/
theorem c5_reported_difference_witness :
    receiveSynAck "5.6.7.8" [Datagram.mk "5.6.7.8" rstPayload 7] = some (2 + 5) ∧
    (0 : Int) < 5 ∧
    latencyMeasure "5.6.7.8" [Datagram.mk "5.6.7.8" rstPayload 7] 2 = some 5 :=
  ⟨by decide, by decide,
   c5_reported_difference "5.6.7.8" _ 2 5 (by decide) (by decide)⟩

/-- C6 counterexample: for a filter-passing qualifying datagram, the
loop's event trace records the timestamp after the remote-address filter
comparison, not before it — the candidate timestamp is not recorded
before any other processing of the datagram as the claim states. -/
theorem c6_counterexample :
    ¬ ((listenTrace "9.9.9.9" 0 [Datagram.mk "9.9.9.9" rstPayload 5]).indexOf
        (LEvent.stampEv 0) <
       (listenTrace "9.9.9.9" 0 [Datagram.mk "9.9.9.9" rstPayload 5]).indexOf
        (LEvent.filterEv 0)) := by
  decide

/-- C6 amended: in every iteration of the `receiveSynAck` loop that
records a candidate timestamp, the timestamp is recorded after the read
returns and after the remote-address filter comparison, but before the
datagram is decoded and flag-matched: the trace contains the events
read, filter, stamp, decode for that datagram in this order. -/
theorem c6_amended (remoteAddress : String) (i j : Nat) (ds : List Datagram)
    (h : LEvent.stampEv i ∈ listenTrace remoteAddress j ds) :
    List.Sublist [LEvent.readEv i, LEvent.filterEv i, LEvent.stampEv i, LEvent.decodeEv i]
      (listenTrace remoteAddress j ds) := by
  induction ds generalizing j with
  | nil => simp [listenTrace] at h
  | cons d rest ih =>
    simp only [listenTrace] at h ⊢
    by_cases h1 : d.src ≠ remoteAddress
    · rw [if_pos h1] at h ⊢
      simp only [List.mem_cons] at h
      rcases h with h | h | h
      · exact absurd h (by simp)
      · exact absurd h (by simp)
      · exact ((ih (j + 1) h).cons _).cons _
    · rw [if_neg h1] at h ⊢
      by_cases h2 : qualifies (listenerDecode d) = true
      · rw [if_pos h2] at h ⊢
        have hij : i = j := by simpa using h
        subst hij
        exact List.Sublist.refl _
      · rw [if_neg h2] at h ⊢
        simp only [List.mem_cons] at h
        rcases h with h | h | h | h | h
        · exact absurd h (by simp)
        · exact absurd h (by simp)
        · have hij : i = j := by simpa using h
          subst hij
          exact List.sublist_append_left _ _
        · exact absurd h (by simp)
        · exact (((((ih (j + 1) h).cons _).cons _).cons _).cons _)

/-- Witness for the amended C6: a concrete qualifying datagram whose
iteration contains read, filter, stamp, decode in order. -/
theorem c6_amended_witness :
    LEvent.stampEv 0 ∈ listenTrace "9.9.9.9" 0 [Datagram.mk "9.9.9.9" rstPayload 5] ∧
    List.Sublist [LEvent.readEv 0, LEvent.filterEv 0, LEvent.stampEv 0, LEvent.decodeEv 0]
      (listenTrace "9.9.9.9" 0 [Datagram.mk "9.9.9.9" rstPayload 5]) :=
  ⟨by decide, c6_amended "9.9.9.9" 0 0 _ (by decide)⟩

/-- C7: when hostname resolution fails, `latency` terminates fatally
right after the lookup, and its event sequence contains no socket-open
operation (neither the listener's `ListenIP` nor the sender's `Dial`). -/
theorem c7_resolution_failure_no_socket :
    latencyEvents none = [OEvent.lookupEv, OEvent.fatalEv] ∧
    (latencyEvents none).all (fun ev => !ev.isSocketOpen) = true := by
  decide

/-- C8 counterexample: `"1.x.3.4"` is not an IPv4 dotted-quad literal
(its second octet is non-numeric), yet `to4byte` neither terminates
fatally nor panics — it silently converts the failed octet to 0 and
returns the garbage bytes `[1, 0, 3, 4]`, from which a segment is then
built and sent. -/
theorem c8_counterexample :
    splitDots "1.x.3.4".data = [['1'], ['x'], ['3'], ['4']] ∧
    atoi ['x'] = none ∧
    to4byte "1.x.3.4" = To4Result.ok [1, 0, 3, 4] ∧
    To4Result.ok [1, 0, 3, 4] ≠ To4Result.fatal ∧
    To4Result.ok [1, 0, 3, 4] ≠ To4Result.panicked := by
  refine ⟨by decide, by decide, by decide, by decide, by decide⟩

/-- C8 amended: only the first dot-separated part of the address is
validated. An address whose first part does not parse as an integer is
rejected fatally (before any probe is sent); an address with fewer than
four parts and a numeric first part causes a runtime panic; any other
address is converted, with unparsable later octets silently becoming
byte 0. -/
theorem c8_to4byte_characterization (addr : String) (p0 : List Char)
    (rest : List (List Char)) (hsplit : splitDots addr.data = p0 :: rest) :
    (atoi p0 = none → to4byte addr = To4Result.fatal) ∧
    (∀ b0, atoi p0 = some b0 → rest.length < 3 → to4byte addr = To4Result.panicked) ∧
    (∀ b0 p1 p2 p3 t, atoi p0 = some b0 → rest = p1 :: p2 :: p3 :: t →
      to4byte addr = To4Result.ok [byteOf b0, byteOf ((atoi p1).getD 0),
        byteOf ((atoi p2).getD 0), byteOf ((atoi p3).getD 0)]) := by
  refine ⟨?_, ?_, ?_⟩
  · intro h
    simp only [to4byte, hsplit, h]
  · intro b0 hb hlen
    simp only [to4byte, hsplit, hb]
    rcases rest with _ | ⟨p1, _ | ⟨p2, _ | ⟨p3, t⟩⟩⟩
    · rfl
    · rfl
    · rfl
    · exfalso
      simp only [List.length_cons] at hlen
      omega
  · intro b0 p1 p2 p3 t hb hrest
    subst hrest
    simp only [to4byte, hsplit, hb]

/-- Witness for the amended C8: an address with a non-numeric first
octet is rejected fatally. -/
theorem c8_to4byte_characterization_witness :
    splitDots "x.1.2.3".data = [['x'], ['1'], ['2'], ['3']] ∧
    atoi ['x'] = none ∧
    to4byte "x.1.2.3" = To4Result.fatal :=
  ⟨by decide, by decide,
   (c8_to4byte_characterization "x.1.2.3" ['x'] [['1'], ['2'], ['3']]
     (by decide)).1 (by decide)⟩

/-- C9: in `sendSyn`, a write error or a short write (bytes written
strictly less than the serialized length) is fatal: no send timestamp is
returned for the probe. -/
theorem c9_short_write_fatal (dataLen : Nat) (writeResult : Except Unit Nat)
    (sendTime : Int)
    (h : writeResult = Except.error () ∨ ∃ n, writeResult = Except.ok n ∧ n < dataLen) :
    sendSynWrite dataLen writeResult sendTime = SendResult.fatal := by
  rcases h with h | ⟨n, hn, hlt⟩
  · subst h
    rfl
  · subst hn
    simp only [sendSynWrite]
    rw [if_pos (Nat.ne_of_lt hlt)]

/-- Witness for C9: writing 5 of 20 bytes is fatal. -/
theorem c9_short_write_fatal_witness :
    ((Except.ok 5 : Except Unit Nat) = Except.error () ∨
      ∃ n, (Except.ok 5 : Except Unit Nat) = Except.ok n ∧ n < 20) ∧
    sendSynWrite 20 (Except.ok 5) 0 = SendResult.fatal :=
  ⟨Or.inr ⟨5, rfl, by decide⟩,
   c9_short_write_fatal 20 (Except.ok 5) 0 (Or.inr ⟨5, rfl, by decide⟩)⟩

/-- C10: the listener reads each datagram into a fixed 1024-byte buffer,
so the decoded segment depends only on the first 1024 payload bytes:
for a datagram already 1024 bytes long, appending further bytes changes
neither the decoded header nor the listener's result — the extra bytes
are discarded before decoding and flag matching. -/
theorem c10_buffer_truncation (remoteAddress : String) (d : Datagram)
    (extra : List Nat) (ds : List Datagram) (h : 1024 ≤ d.payload.length) :
    listenerDecode { d with payload := d.payload ++ extra } = listenerDecode d ∧
    receiveSynAck remoteAddress ({ d with payload := d.payload ++ extra } :: ds) =
      receiveSynAck remoteAddress (d :: ds) := by
  have ht : (d.payload ++ extra).take 1024 = d.payload.take 1024 :=
    List.take_append_of_le_length h
  refine ⟨?_, ?_⟩
  · simp only [listenerDecode, ht]
  · simp only [receiveSynAck, listenerDecode, ht]

set_option maxRecDepth 10000 in
/-- Witness for C10: a 1024-byte RST datagram with two extra bytes
appended decodes identically and yields the same listener result. -/
theorem c10_buffer_truncation_witness :
    1024 ≤ (Datagram.mk "9.9.9.9" (rstPayload ++ List.replicate 1004 0) 5).payload.length ∧
    (listenerDecode { Datagram.mk "9.9.9.9" (rstPayload ++ List.replicate 1004 0) 5 with
        payload := (rstPayload ++ List.replicate 1004 0) ++ [7, 7] } =
      listenerDecode (Datagram.mk "9.9.9.9" (rstPayload ++ List.replicate 1004 0) 5) ∧
    receiveSynAck "9.9.9.9"
        ({ Datagram.mk "9.9.9.9" (rstPayload ++ List.replicate 1004 0) 5 with
            payload := (rstPayload ++ List.replicate 1004 0) ++ [7, 7] } :: []) =
      receiveSynAck "9.9.9.9"
        (Datagram.mk "9.9.9.9" (rstPayload ++ List.replicate 1004 0) 5 :: [])) :=
  ⟨by decide,
   c10_buffer_truncation "9.9.9.9"
     (Datagram.mk "9.9.9.9" (rstPayload ++ List.replicate 1004 0) 5) [7, 7] []
     (by decide)⟩
